import Mathlib

/-!
Shallow embedding of the `CallInstrumentor` class of this repository
(`src/unnamed/part_000`), a TypeScript-AST instrumentation pass built on the
`typescript` compiler API.  TypeScript AST nodes are embedded as the inductive
type `Ast`; node lists (argument lists, statement lists) are embedded
first-order as the `nilList`/`consList` constructors so that all functions are
structural recursions that the kernel can evaluate.  The instrumentor's
mutable state (its `isInstrumented` map and the emit-time uniqueness of
`factory.createUniqueName`) is threaded explicitly as `InstrState`; the
`Symbol("instrumented")` marker that the source attaches to a call node is
embedded as the `marked` field of the `call` constructor (invisible to source
text, exactly like the symbol-keyed property).  The injected hash function
`getHash` (imported from `../utils`, outside the instrumentor) is a parameter
`hash : String → String`, and `node.getText()` is embedded as the printer
`renderText`.
-/

/-- A TypeScript AST node (`ts.Node`), restricted to the shapes the
instrumentor reads or builds.  `call c args marked` is a `ts.CallExpression`
(`expression`, `arguments`, and the truth of its `Symbol("instrumented")`
property); `propAccess o m` is a `ts.PropertyAccessExpression` with
`expression` `o` and `name` text `m`; `noExpr` stands for an absent optional
part (e.g. a `for` header slot left `undefined`); `nilList`/`consList` encode
node arrays; `otherNode t` is any other node shape, carrying its source
text. -/
inductive Ast where
  | ident (t : String)
  | thisKw
  | propAccess (obj : Ast) (m : String)
  | call (callee : Ast) (args : Ast) (marked : Bool)
  | strLit (s : String)
  | paren (e : Ast)
  | arrow (body : Ast)
  | exprStmt (e : Ast)
  | varConst (x : String) (init : Ast)
  | ret (e : Ast)
  | block (ss : Ast)
  | forStmt (ini cond incr body : Ast)
  | forOf (awaitMod : Bool) (ini expr body : Ast)
  | forIn (ini expr body : Ast)
  | whileStmt (cond body : Ast)
  | sourceFile (ss : Ast)
  | noExpr
  | nilList
  | consList (hd tl : Ast)
  | otherNode (t : String)
  deriving DecidableEq

/-- Embed a Lean list of nodes as a node array. -/
def listOf : List Ast → Ast
  | [] => Ast.nilList
  | a :: r => Ast.consList a (listOf r)

/-- Append of node arrays, as the spread `[...xs, ...ys]` the source uses. -/
def astAppend : Ast → Ast → Ast
  | Ast.consList h t, ys => Ast.consList h (astAppend t ys)
  | _, ys => ys

/-- `node.getText()`: the source text of a node.  The host keeps the original
text; this printer is its deterministic stand-in (same node, same text). -/
def renderText : Ast → String
  | Ast.ident t => t
  | Ast.thisKw => "this"
  | Ast.propAccess o m => renderText o ++ "." ++ m
  | Ast.call c args _ => renderText c ++ "(" ++ renderText args ++ ")"
  | Ast.strLit s => "\"" ++ s ++ "\""
  | Ast.paren e => "(" ++ renderText e ++ ")"
  | Ast.arrow b => "() => " ++ renderText b
  | Ast.exprStmt e => renderText e ++ ";"
  | Ast.varConst x i => "const " ++ x ++ " = " ++ renderText i ++ ";"
  | Ast.ret e => "return " ++ renderText e ++ ";"
  | Ast.block ss => "\x7b " ++ renderText ss ++ " \x7d"
  | Ast.forStmt i c inc b =>
      "for (" ++ renderText i ++ "; " ++ renderText c ++ "; " ++ renderText inc
        ++ ") " ++ renderText b
  | Ast.forOf aw i e b =>
      "for " ++ (if aw then "await " else "") ++ "(" ++ renderText i ++ " of "
        ++ renderText e ++ ") " ++ renderText b
  | Ast.forIn i e b =>
      "for (" ++ renderText i ++ " in " ++ renderText e ++ ") " ++ renderText b
  | Ast.whileStmt c b => "while (" ++ renderText c ++ ") " ++ renderText b
  | Ast.sourceFile ss => renderText ss
  | Ast.noExpr => ""
  | Ast.nilList => ""
  | Ast.consList h Ast.nilList => renderText h
  | Ast.consList h t => renderText h ++ ", " ++ renderText t
  | Ast.otherNode t => t

/-- `node.kind === ts.SyntaxKind.ThisKeyword`. -/
def isThis : Ast → Bool
  | Ast.thisKw => true
  | _ => false

/-- `functionName.replace(/\./g, '_')`: every `.` becomes `_`. -/
def replaceDots (s : String) : String :=
  String.mk (s.data.map (fun c => if c = '.' then '_' else c))

def charsPrefix : List Char → List Char → Bool
  | [], _ => true
  | _ :: _, [] => false
  | c :: cs, d :: ds => c == d && charsPrefix cs ds

/-- `s.startsWith(pre)` of JavaScript strings. -/
def strStartsWith (s pre : String) : Bool :=
  charsPrefix pre.data s.data

/-- The recursive core of `getFunctionName` (src/unnamed/part_000 lines
9-20) specialised to the property-access nodes the source recurses on
through its `as unknown as ts.CallExpression` cast:
`getFunctionNamePA hash obj m` is the source's `getFunctionName` applied to
the node `obj.m`, whose `.expression` is `obj` and whose `.name` is `m`.  If
`obj` is an identifier the result is its text; if `obj` is itself `o2.m2`
the source returns `'this.' + m2` when `o2` is `this` and otherwise recurses
on `o2.m2` and appends `'.' + m2`; any other receiver shape falls to
`'anonymous_' + getHash(node.getText())` with `node` the property access
`obj.m` itself. -/
def getFunctionNamePA (hash : String → String) : Ast → String → String
  | Ast.ident t, _ => t
  | Ast.propAccess o2 m2, _ =>
      if isThis o2 then "this." ++ m2
      else getFunctionNamePA hash o2 m2 ++ "." ++ m2
  | obj, m => "anonymous_" ++ hash (renderText (Ast.propAccess obj m))

/-- `getFunctionName` (src/unnamed/part_000 lines 9-20).  The source reads
`node.expression`: the callee of a call node, the receiver of a property
access.  A property-access argument (reached only through the source's cast)
is delegated to `getFunctionNamePA`, the same recursion.  The function is
only ever applied to call expressions (its declared type) and to property
accesses; the fallback on any other shape is unreachable from the
instrumentor's entry points. -/
def getFunctionName (hash : String → String) : Ast → String
  | node@(Ast.call callee _ _) =>
    (match callee with
     | Ast.ident t => t
     | Ast.propAccess obj m =>
       if isThis obj then "this." ++ m
       else getFunctionNamePA hash obj m ++ "." ++ m
     | _ => "anonymous_" ++ hash (renderText node))
  | Ast.propAccess obj m => getFunctionNamePA hash obj m
  | node => "anonymous_" ++ hash (renderText node)

/-- `EXCLUDED_FUNCTIONS` (src/unnamed/part_000 lines 22-29). -/
def EXCLUDED_FUNCTIONS : List String :=
  ["console.log", "process.on", "performance.now", "Math.max", "Math.min"]

/-- `shouldInstrumentCall` (src/unnamed/part_000 lines 31-41): false iff the
resolved name equals an excluded name or starts with an excluded name
followed by a dot. -/
def shouldInstrumentCall (hash : String → String) (node : Ast) : Bool :=
  let functionName := getFunctionName hash node
  !(EXCLUDED_FUNCTIONS.any (fun excluded =>
      functionName == excluded || strStartsWith functionName (excluded ++ ".")))

/-- The instrumentor's stateful context: the `isInstrumented` map (the names
set to `true`, insertion at the head) and the counter that models the
uniqueness `factory.createUniqueName` guarantees for generated
identifiers. -/
structure InstrState where
  isInstrumented : List String
  counter : Nat
  deriving DecidableEq

/-- `factory.createUniqueName(base)`: a fresh identifier text built from
`base`; each creation consumes one counter tick (the emitter's `base_N`
scheme, as in the `result_1`, `result_2` of the repository's sample
output). -/
def freshName (base : String) (st : InstrState) : String × InstrState :=
  (base ++ "_" ++ Nat.repr (st.counter + 1), ⟨st.isInstrumented, st.counter + 1⟩)

/-- `console.log(<msg>)` as a statement, as `_instrumentCall` builds it with
`factory.createExpressionStatement`/`createCallExpression`/
`createPropertyAccessExpression`/`createStringLiteral`. -/
def consoleLog (msg : String) : Ast :=
  Ast.exprStmt (Ast.call (Ast.propAccess (Ast.ident "console") "log")
    (Ast.consList (Ast.strLit msg) Ast.nilList) false)

namespace Creator

/-- Modelled from the spec: `Creator.createFunctionData` of `../createNode`
is not under src/; per the telemetry-sink contract it registers the call
site under its resolved name (`register-call-site(name)`). -/
def createFunctionData (name : String) : Ast :=
  Ast.exprStmt (Ast.call (Ast.ident "registerCallSite")
    (Ast.consList (Ast.strLit name) Ast.nilList) false)

/-- Modelled from the spec: `Creator.createIncrementCallCount` of
`../createNode` is not under src/; it emits a counter increment keyed by the
resolved name (`increment-call-count(name)`). -/
def createIncrementCallCount (name : String) : Ast :=
  Ast.exprStmt (Ast.call (Ast.ident "incrementCallCount")
    (Ast.consList (Ast.strLit name) Ast.nilList) false)

/-- Modelled from the spec: `Creator.createBeginFunctionLog` of
`../createNode` is not under src/; it stores a start timestamp under the
uniquely generated identifier (`mark-timing-start(id)`). -/
def createBeginFunctionLog (startVar : String) : Ast :=
  Ast.varConst startVar (Ast.call (Ast.ident "markTimingStart") Ast.nilList false)

/-- Modelled from the spec: `Creator.createEndFunctionLog` of `../createNode`
is not under src/; it yields the timing-end statements (the source spreads
its result into the block), computing the elapsed time from the start mark
and recording it (`mark-timing-end(name, startToken)`). -/
def createEndFunctionLog (name startVar endVar : String) : Ast :=
  listOf
    [Ast.varConst endVar (Ast.call (Ast.ident "markTimingEnd") Ast.nilList false),
     Ast.exprStmt (Ast.call (Ast.ident "recordDuration")
       (listOf [Ast.strLit name, Ast.ident startVar, Ast.ident endVar]) false)]

/-- Modelled from the spec: `Creator.createLoopData` of `../createNode` is
not under src/; it registers loop-iteration bookkeeping keyed by the
generated loop identifier (`register-loop-site(id)`). -/
def createLoopData (loopName : String) : Ast :=
  Ast.exprStmt (Ast.call (Ast.ident "registerLoopSite")
    (Ast.consList (Ast.strLit loopName) Ast.nilList) false)

/-- Modelled from the spec: `Creator.createIncrementIteration` of
`../createNode` is not under src/; it increments the iteration counter
(`increment-iteration(id)`). -/
def createIncrementIteration (loopName : String) : Ast :=
  Ast.exprStmt (Ast.call (Ast.ident "incrementIteration")
    (Ast.consList (Ast.strLit loopName) Ast.nilList) false)

/-- Modelled from the spec: `Creator.createInitStmt` of `../createNode` is
not under src/; it is the fixed initialization sequence (a statement array,
spread before the unit's statements) that sets up where counters, timers and
traces are recorded. -/
def createInitStmt : Ast :=
  listOf [Ast.exprStmt (Ast.call (Ast.ident "initTelemetry") Ast.nilList false)]

end Creator

/-- `(node as any)[this.INSTRUMENTED_SYMBOL] = true`: the in-place marking of
a call node, embedded immutably as the marked copy of the node. -/
def markNode : Ast → Ast
  | Ast.call c a _ => Ast.call c a true
  | e => e

/-- `(node as any)[this.INSTRUMENTED_SYMBOL]` read as a boolean. -/
def isMarkedNode : Ast → Bool
  | Ast.call _ _ m => m
  | _ => false

/-- `_instrumentCall` (src/unnamed/part_000 lines 49-132): skip when the
per-name flag and the node marker are both set; otherwise set both, build the
begin/end `console.log` statements, the `const <fresh> = <original call>`
declaration, the Creator fragments, and return the zero-argument arrow IIFE
whose block holds them in the source's order. -/
def _instrumentCall (hash : String → String) (node : Ast) (st : InstrState) :
    Ast × InstrState :=
  let functionName := getFunctionName hash node
  if st.isInstrumented.contains functionName && isMarkedNode node then
    (node, st)
  else
    let st1 : InstrState := ⟨functionName :: st.isInstrumented, st.counter⟩
    let node1 := markNode node
    let functionNameFormatted := replaceDots functionName
    let beforeLog := consoleLog ("[PREF] begin call " ++ functionNameFormatted)
    let afterLog := consoleLog ("[PREF] end call " ++ functionNameFormatted)
    let r := freshName "result" st1
    let varStmt := Ast.varConst r.1 node1
    let returnStmt := Ast.ret (Ast.ident r.1)
    let s := freshName ("__call_start_" ++ functionNameFormatted) r.2
    let e := freshName ("__call_end_" ++ functionNameFormatted) s.2
    let functionData := Creator.createFunctionData functionName
    let incrementCallCount := Creator.createIncrementCallCount functionName
    let beginFunctionLog := Creator.createBeginFunctionLog s.1
    let endFunctionLog := Creator.createEndFunctionLog functionName s.1 e.1
    let blk := Ast.block (astAppend
      (listOf [beforeLog, functionData, incrementCallCount, beginFunctionLog, varStmt])
      (astAppend endFunctionLog (listOf [afterLog, returnStmt])))
    let arrowFunction := Ast.arrow blk
    let iife := Ast.call (Ast.paren arrowFunction) Ast.nilList false
    (iife, e.2)

/-- `ts.isForStatement || ts.isForOfStatement || ts.isForInStatement`. -/
def isForLike : Ast → Bool
  | Ast.forStmt _ _ _ _ => true
  | Ast.forOf _ _ _ _ => true
  | Ast.forIn _ _ _ => true
  | _ => false

/-- `node.statement` of a loop node. -/
def loopBody : Ast → Ast
  | Ast.forStmt _ _ _ b => b
  | Ast.forOf _ _ _ b => b
  | Ast.forIn _ _ b => b
  | _ => Ast.noExpr

/-- `getNodeUniqueName` (src/unnamed/part_000 lines 134-145): a unique name
from the loop's kind prefix and the hash of its source text (one
`createUniqueName`, whose `.text` is taken). -/
def getNodeUniqueName (hash : String → String) (node : Ast) (st : InstrState) :
    String × InstrState :=
  match node with
  | Ast.forStmt _ _ _ _ => freshName ("for_" ++ hash (renderText node)) st
  | Ast.forOf _ _ _ _ => freshName ("forof_" ++ hash (renderText node)) st
  | Ast.forIn _ _ _ => freshName ("forin_" ++ hash (renderText node)) st
  | _ => ("", st)

/-- `_instrumentLoop` (src/unnamed/part_000 lines 147-178): a second
`createUniqueName` over `getNodeUniqueName`'s text, the bookkeeping block
`[loopData, incrementIteration, node.statement]`, and a rebuilt loop of the
same kind with its original header parts. -/
def _instrumentLoop (hash : String → String) (node : Ast) (st : InstrState) :
    Ast × InstrState :=
  let p := getNodeUniqueName hash node st
  let q := freshName p.1 p.2
  let loopName := q.1
  let loopData := Creator.createLoopData loopName
  let incrementIteration := Creator.createIncrementIteration loopName
  let blk := Ast.block (listOf [loopData, incrementIteration, loopBody node])
  match node with
  | Ast.forStmt i c inc _ => (Ast.forStmt i c inc blk, q.2)
  | Ast.forOf aw i e _ => (Ast.forOf aw i e blk, q.2)
  | Ast.forIn i e _ => (Ast.forIn i e blk, q.2)
  | _ => (node, q.2)

/-- `ts.isSourceFile(node)`. -/
def isSourceFileNode : Ast → Bool
  | Ast.sourceFile _ => true
  | _ => false

/-- `ts.isCallExpression(node)`. -/
def isCallExpression : Ast → Bool
  | Ast.call _ _ _ => true
  | _ => false

/-- `node.statements` of a source file. -/
def sourceStatements : Ast → Ast
  | Ast.sourceFile ss => ss
  | _ => Ast.nilList

/-- `instrumentFunction` (src/unnamed/part_000 lines 180-198): prepend the
initialization sequence at a source-file root; wrap a call expression that
passes `shouldInstrumentCall`; rewrap a for/for-of/for-in loop; return every
other node unchanged. -/
def instrumentFunction (hash : String → String) (node : Ast) (st : InstrState) :
    Ast × InstrState :=
  if isSourceFileNode node then
    (Ast.sourceFile (astAppend Creator.createInitStmt (sourceStatements node)), st)
  else
    let p :=
      if isCallExpression node && shouldInstrumentCall hash node then
        _instrumentCall hash node st
      else (node, st)
    if isForLike p.1 then _instrumentLoop hash p.1 p.2 else p

/-- Node size, the measure behind the occurrence-counting lemmas. -/
def astSize : Ast → Nat
  | Ast.ident _ => 1
  | Ast.thisKw => 1
  | Ast.propAccess o _ => astSize o + 1
  | Ast.call c a _ => astSize c + astSize a + 1
  | Ast.strLit _ => 1
  | Ast.paren e => astSize e + 1
  | Ast.arrow b => astSize b + 1
  | Ast.exprStmt e => astSize e + 1
  | Ast.varConst _ i => astSize i + 1
  | Ast.ret e => astSize e + 1
  | Ast.block ss => astSize ss + 1
  | Ast.forStmt i c inc b => astSize i + astSize c + astSize inc + astSize b + 1
  | Ast.forOf _ i e b => astSize i + astSize e + astSize b + 1
  | Ast.forIn i e b => astSize i + astSize e + astSize b + 1
  | Ast.whileStmt c b => astSize c + astSize b + 1
  | Ast.sourceFile ss => astSize ss + 1
  | Ast.noExpr => 1
  | Ast.nilList => 1
  | Ast.consList h t => astSize h + astSize t + 1
  | Ast.otherNode _ => 1

/-- How many subtrees of `e` (including `e` itself) equal `t`. -/
def countOcc (t : Ast) : Ast → Nat
  | e@(Ast.ident _) => if e = t then 1 else 0
  | e@Ast.thisKw => if e = t then 1 else 0
  | e@(Ast.propAccess o _) => (if e = t then 1 else 0) + countOcc t o
  | e@(Ast.call c a _) => (if e = t then 1 else 0) + countOcc t c + countOcc t a
  | e@(Ast.strLit _) => if e = t then 1 else 0
  | e@(Ast.paren x) => (if e = t then 1 else 0) + countOcc t x
  | e@(Ast.arrow b) => (if e = t then 1 else 0) + countOcc t b
  | e@(Ast.exprStmt x) => (if e = t then 1 else 0) + countOcc t x
  | e@(Ast.varConst _ i) => (if e = t then 1 else 0) + countOcc t i
  | e@(Ast.ret x) => (if e = t then 1 else 0) + countOcc t x
  | e@(Ast.block ss) => (if e = t then 1 else 0) + countOcc t ss
  | e@(Ast.forStmt i c inc b) =>
      (if e = t then 1 else 0) + countOcc t i + countOcc t c + countOcc t inc
        + countOcc t b
  | e@(Ast.forOf _ i x b) =>
      (if e = t then 1 else 0) + countOcc t i + countOcc t x + countOcc t b
  | e@(Ast.forIn i x b) =>
      (if e = t then 1 else 0) + countOcc t i + countOcc t x + countOcc t b
  | e@(Ast.whileStmt c b) => (if e = t then 1 else 0) + countOcc t c + countOcc t b
  | e@(Ast.sourceFile ss) => (if e = t then 1 else 0) + countOcc t ss
  | e@Ast.noExpr => if e = t then 1 else 0
  | e@Ast.nilList => if e = t then 1 else 0
  | e@(Ast.consList h tl) => (if e = t then 1 else 0) + countOcc t h + countOcc t tl
  | e@(Ast.otherNode _) => if e = t then 1 else 0

/-- No call node in this subtree carries the instrumentation marker. -/
def noMarked : Ast → Bool
  | Ast.ident _ => true
  | Ast.thisKw => true
  | Ast.propAccess o _ => noMarked o
  | Ast.call c a m => !m && noMarked c && noMarked a
  | Ast.strLit _ => true
  | Ast.paren e => noMarked e
  | Ast.arrow b => noMarked b
  | Ast.exprStmt e => noMarked e
  | Ast.varConst _ i => noMarked i
  | Ast.ret e => noMarked e
  | Ast.block ss => noMarked ss
  | Ast.forStmt i c inc b => noMarked i && noMarked c && noMarked inc && noMarked b
  | Ast.forOf _ i e b => noMarked i && noMarked e && noMarked b
  | Ast.forIn i e b => noMarked i && noMarked e && noMarked b
  | Ast.whileStmt c b => noMarked c && noMarked b
  | Ast.sourceFile ss => noMarked ss
  | Ast.noExpr => true
  | Ast.nilList => true
  | Ast.consList h t => noMarked h && noMarked t
  | Ast.otherNode _ => true

/-- The callee shapes that fall through both `ts.isIdentifier` and
`ts.isPropertyAccessExpression` in `getFunctionName`. -/
def otherCalleeShape : Ast → Bool
  | Ast.ident _ => false
  | Ast.propAccess _ _ => false
  | _ => true

/-- The receiver shapes on which the structural recursion of
`getFunctionName` bottoms out anonymously: neither an identifier, nor the
`this` keyword, nor a further property access. -/
def anonymousBase : Ast → Bool
  | Ast.ident _ => false
  | Ast.thisKw => false
  | Ast.propAccess _ _ => false
  | _ => true

/-- A node strictly smaller than `t` holds no occurrence of `t`. -/
theorem countOcc_eq_zero (t : Ast) :
    ∀ e : Ast, astSize e < astSize t → countOcc t e = 0 := by
  intro e
  induction e <;> intro h <;>
    simp only [countOcc] <;>
    rw [if_neg (fun hh => by rw [← hh] at h; omega)] <;>
    simp only [astSize] at h <;>
    simp_all <;> omega

/-- A call node occurs exactly once in itself. -/
theorem countOcc_self_call (c a : Ast) (m : Bool) :
    countOcc (Ast.call c a m) (Ast.call c a m) = 1 := by
  have h1 := countOcc_eq_zero (Ast.call c a m) c (by simp [astSize]; omega)
  have h2 := countOcc_eq_zero (Ast.call c a m) a (by simp [astSize]; omega)
  simp [countOcc, h1, h2]

/-- A marker-free subtree holds no occurrence of a marked call node. -/
theorem countOcc_zero_of_noMarked (c a : Ast) :
    ∀ e : Ast, noMarked e = true → countOcc (Ast.call c a true) e = 0 := by
  intro e
  induction e <;> simp_all [countOcc, noMarked]

/-- Shared unfolding: the replacement `_instrumentCall` returns when the skip
condition fails. -/
theorem instrumentCall_wrap_eq (hash : String → String) (callee args : Ast)
    (mk : Bool) (st : InstrState)
    (h : (st.isInstrumented.contains (getFunctionName hash (Ast.call callee args mk))
          && isMarkedNode (Ast.call callee args mk)) = false) :
    (_instrumentCall hash (Ast.call callee args mk) st).1 =
      (let fn := getFunctionName hash (Ast.call callee args mk)
       let fmt := replaceDots fn
       let resVar := "result_" ++ Nat.repr (st.counter + 1)
       let startVar := "__call_start_" ++ fmt ++ "_" ++ Nat.repr (st.counter + 2)
       let endVar := "__call_end_" ++ fmt ++ "_" ++ Nat.repr (st.counter + 3)
       Ast.call (Ast.paren (Ast.arrow (Ast.block (astAppend
         (listOf
           [consoleLog ("[PREF] begin call " ++ fmt),
            Creator.createFunctionData fn,
            Creator.createIncrementCallCount fn,
            Creator.createBeginFunctionLog startVar,
            Ast.varConst resVar (Ast.call callee args true)])
         (astAppend (Creator.createEndFunctionLog fn startVar endVar)
           (listOf [consoleLog ("[PREF] end call " ++ fmt),
                    Ast.ret (Ast.ident resVar)])))))) Ast.nilList false) := by
  have h' : (st.isInstrumented.contains (getFunctionName hash (Ast.call callee args mk))
          && isMarkedNode (Ast.call callee args mk)) ≠ true := by rw [h]; simp
  simp only [_instrumentCall, if_neg h']
  rfl

/-- Shared: the marked original call occurs exactly once in the replacement. -/
theorem instrumentCall_count_one (hash : String → String) (callee args : Ast)
    (mk : Bool) (st : InstrState)
    (h : (st.isInstrumented.contains (getFunctionName hash (Ast.call callee args mk))
          && isMarkedNode (Ast.call callee args mk)) = false) :
    countOcc (Ast.call callee args true)
      ((_instrumentCall hash (Ast.call callee args mk) st).1) = 1 := by
  have hc := countOcc_eq_zero (Ast.call callee args true) callee (by simp [astSize]; omega)
  have ha := countOcc_eq_zero (Ast.call callee args true) args (by simp [astSize]; omega)
  have h' : (st.isInstrumented.contains (getFunctionName hash (Ast.call callee args mk))
          && isMarkedNode (Ast.call callee args mk)) ≠ true := by rw [h]; simp
  simp only [_instrumentCall, if_neg h']
  simp [countOcc, consoleLog, freshName, markNode,
    Creator.createFunctionData, Creator.createIncrementCallCount,
    Creator.createBeginFunctionLog, Creator.createEndFunctionLog,
    listOf, astAppend, hc, ha]

/-- Shared: the size of the replacement, used to separate it from the
original node. -/
theorem instrumentCall_size (hash : String → String) (callee args : Ast)
    (mk : Bool) (st : InstrState)
    (h : (st.isInstrumented.contains (getFunctionName hash (Ast.call callee args mk))
          && isMarkedNode (Ast.call callee args mk)) = false) :
    astSize ((_instrumentCall hash (Ast.call callee args mk) st).1) =
      astSize callee + astSize args + 63 := by
  have h' : (st.isInstrumented.contains (getFunctionName hash (Ast.call callee args mk))
          && isMarkedNode (Ast.call callee args mk)) ≠ true := by rw [h]; simp
  simp only [_instrumentCall, if_neg h']
  simp [astSize, consoleLog, freshName, markNode,
    Creator.createFunctionData, Creator.createIncrementCallCount,
    Creator.createBeginFunctionLog, Creator.createEndFunctionLog,
    listOf, astAppend]
  omega

/-- Shared: the replacement is never the original node (it is strictly
larger). -/
theorem instrumentCall_result_ne (hash : String → String) (callee args : Ast)
    (mk : Bool) (st : InstrState)
    (h : (st.isInstrumented.contains (getFunctionName hash (Ast.call callee args mk))
          && isMarkedNode (Ast.call callee args mk)) = false) :
    (_instrumentCall hash (Ast.call callee args mk) st).1 ≠
      Ast.call callee args mk := by
  intro heq
  have hsz := instrumentCall_size hash callee args mk st h
  rw [heq] at hsz
  simp [astSize] at hsz

/-- Shared: with the name flag and the node marker both set, the node comes
back unchanged with the state untouched. -/
theorem instrumentCall_skip (hash : String → String) (node : Ast) (st : InstrState)
    (h : (st.isInstrumented.contains (getFunctionName hash node)
          && isMarkedNode node) = true) :
    _instrumentCall hash node st = (node, st) := by
  simp only [_instrumentCall, if_pos h]

/-- C1: for every call expression that is instrumented (the skip condition
fails), the replacement `_instrumentCall` returns is an immediately-invoked
zero-argument arrow closure whose block holds, in order: the begin-call
trace whose message uses the resolved name with every `.` replaced by `_`,
the call-site registration, the call-count increment, the timing-start
statement, a `const` declaration binding the original call node — which
occurs exactly once in the whole replacement — to a freshly generated unique
identifier, the timing-end statements, the end-call trace, and a `return` of
the bound identifier. -/
theorem instrumentCall_replacement_shape (hash : String → String)
    (callee args : Ast) (mk : Bool) (st : InstrState)
    (h : (st.isInstrumented.contains (getFunctionName hash (Ast.call callee args mk))
          && isMarkedNode (Ast.call callee args mk)) = false) :
    ((_instrumentCall hash (Ast.call callee args mk) st).1 =
      (let fn := getFunctionName hash (Ast.call callee args mk)
       let fmt := replaceDots fn
       let resVar := "result_" ++ Nat.repr (st.counter + 1)
       let startVar := "__call_start_" ++ fmt ++ "_" ++ Nat.repr (st.counter + 2)
       let endVar := "__call_end_" ++ fmt ++ "_" ++ Nat.repr (st.counter + 3)
       Ast.call (Ast.paren (Ast.arrow (Ast.block (astAppend
         (listOf
           [consoleLog ("[PREF] begin call " ++ fmt),
            Creator.createFunctionData fn,
            Creator.createIncrementCallCount fn,
            Creator.createBeginFunctionLog startVar,
            Ast.varConst resVar (Ast.call callee args true)])
         (astAppend (Creator.createEndFunctionLog fn startVar endVar)
           (listOf [consoleLog ("[PREF] end call " ++ fmt),
                    Ast.ret (Ast.ident resVar)])))))) Ast.nilList false))
    ∧ countOcc (Ast.call callee args true)
        ((_instrumentCall hash (Ast.call callee args mk) st).1) = 1 :=
  ⟨instrumentCall_wrap_eq hash callee args mk st h,
   instrumentCall_count_one hash callee args mk st h⟩

/-- Witness for C1: the call `add()` wrapped from the empty state. -/
theorem instrumentCall_replacement_shape_witness :
    ((_instrumentCall (fun s => s) (Ast.call (Ast.ident "add") Ast.nilList false)
        (InstrState.mk [] 0)).1 =
      (let fn := getFunctionName (fun s => s)
        (Ast.call (Ast.ident "add") Ast.nilList false)
       let fmt := replaceDots fn
       let resVar := "result_" ++ Nat.repr ((InstrState.mk [] 0).counter + 1)
       let startVar := "__call_start_" ++ fmt ++ "_"
         ++ Nat.repr ((InstrState.mk [] 0).counter + 2)
       let endVar := "__call_end_" ++ fmt ++ "_"
         ++ Nat.repr ((InstrState.mk [] 0).counter + 3)
       Ast.call (Ast.paren (Ast.arrow (Ast.block (astAppend
         (listOf
           [consoleLog ("[PREF] begin call " ++ fmt),
            Creator.createFunctionData fn,
            Creator.createIncrementCallCount fn,
            Creator.createBeginFunctionLog startVar,
            Ast.varConst resVar (Ast.call (Ast.ident "add") Ast.nilList true)])
         (astAppend (Creator.createEndFunctionLog fn startVar endVar)
           (listOf [consoleLog ("[PREF] end call " ++ fmt),
                    Ast.ret (Ast.ident resVar)])))))) Ast.nilList false))
    ∧ countOcc (Ast.call (Ast.ident "add") Ast.nilList true)
        ((_instrumentCall (fun s => s) (Ast.call (Ast.ident "add") Ast.nilList false)
          (InstrState.mk [] 0)).1) = 1 :=
  instrumentCall_replacement_shape (fun s => s) (Ast.ident "add") Ast.nilList false
    (InstrState.mk [] 0) rfl

/-- C2: a call node is skipped (returned unchanged) by `_instrumentCall`
exactly when the per-name flag and the node's own marker are both set; a
distinct call node whose name flag is set but which carries no marker is
still wrapped and its embedded original acquires its own marker. -/
theorem instrumentCall_skip_iff (hash : String → String)
    (callee args : Ast) (mk : Bool) (st : InstrState) :
    ((_instrumentCall hash (Ast.call callee args mk) st).1 = Ast.call callee args mk
      ↔ (st.isInstrumented.contains (getFunctionName hash (Ast.call callee args mk))
          && isMarkedNode (Ast.call callee args mk)) = true)
    ∧ ((st.isInstrumented.contains (getFunctionName hash (Ast.call callee args mk)) = true
        ∧ mk = false) →
        (_instrumentCall hash (Ast.call callee args mk) st).1 ≠ Ast.call callee args mk
        ∧ countOcc (Ast.call callee args true)
            ((_instrumentCall hash (Ast.call callee args mk) st).1) = 1) := by
  constructor
  · constructor
    · intro heq
      by_contra hne
      have hf : (st.isInstrumented.contains
            (getFunctionName hash (Ast.call callee args mk))
          && isMarkedNode (Ast.call callee args mk)) = false := by
        revert hne
        cases st.isInstrumented.contains (getFunctionName hash (Ast.call callee args mk))
          && isMarkedNode (Ast.call callee args mk) <;> simp
      exact instrumentCall_result_ne hash callee args mk st hf heq
    · intro hc
      rw [instrumentCall_skip hash (Ast.call callee args mk) st hc]
  · rintro ⟨h1, h2⟩
    have hf : (st.isInstrumented.contains
          (getFunctionName hash (Ast.call callee args mk))
        && isMarkedNode (Ast.call callee args mk)) = false := by
      simp [isMarkedNode, h1, h2]
    exact ⟨instrumentCall_result_ne hash callee args mk st hf,
           instrumentCall_count_one hash callee args mk st hf⟩

/-- Shared: the anonymous fallback of `getFunctionName` on a call whose
callee is neither an identifier nor a property access. -/
theorem getFunctionName_other (hash : String → String) (callee args : Ast)
    (mk : Bool) (h : otherCalleeShape callee = true) :
    getFunctionName hash (Ast.call callee args mk) =
      "anonymous_" ++ hash (renderText (Ast.call callee args mk)) := by
  cases callee <;> simp_all [getFunctionName, otherCalleeShape]

/-- C3: the name resolver returns the identifier's text for a bare
identifier callee; `"this." ++ m` for a property access on the `this`
keyword; the recursive resolution (applied, as the source does, to the
property-access node itself) concatenated with `"." ++ m` for `E.m` with `E`
not `this`; and otherwise `"anonymous_" ++ hash` of the call node's exact
source text, the same source text always yielding the same resolved name. -/
theorem getFunctionName_resolution (hash : String → String) :
    (∀ t args mk, getFunctionName hash (Ast.call (Ast.ident t) args mk) = t)
    ∧ (∀ m args mk,
        getFunctionName hash (Ast.call (Ast.propAccess Ast.thisKw m) args mk) =
          "this." ++ m)
    ∧ (∀ E m args mk, isThis E = false →
        getFunctionName hash (Ast.call (Ast.propAccess E m) args mk) =
          getFunctionName hash (Ast.propAccess E m) ++ "." ++ m)
    ∧ (∀ callee args mk, otherCalleeShape callee = true →
        getFunctionName hash (Ast.call callee args mk) =
          "anonymous_" ++ hash (renderText (Ast.call callee args mk)))
    ∧ (∀ c1 a1 m1 c2 a2 m2, otherCalleeShape c1 = true → otherCalleeShape c2 = true →
        renderText (Ast.call c1 a1 m1) = renderText (Ast.call c2 a2 m2) →
        getFunctionName hash (Ast.call c1 a1 m1) =
          getFunctionName hash (Ast.call c2 a2 m2)) := by
  refine ⟨?_, ?_, ?_, ?_, ?_⟩
  · intro t args mk
    simp [getFunctionName]
  · intro m args mk
    simp [getFunctionName, isThis]
  · intro E m args mk h
    simp [getFunctionName, h]
  · intro callee args mk h
    exact getFunctionName_other hash callee args mk h
  · intro c1 a1 m1 c2 a2 m2 h1 h2 hr
    rw [getFunctionName_other hash c1 a1 m1 h1, getFunctionName_other hash c2 a2 m2 h2, hr]

/-- Witness for C3: the member chain `obj.m(...)` (a non-`this` receiver)
and the anonymous callee `(f)(...)` at concrete inputs. -/
theorem getFunctionName_resolution_witness :
    (getFunctionName (fun s => s)
        (Ast.call (Ast.propAccess (Ast.ident "obj") "m") Ast.nilList false) =
      getFunctionName (fun s => s) (Ast.propAccess (Ast.ident "obj") "m") ++ "." ++ "m")
    ∧ getFunctionName (fun s => s)
        (Ast.call (Ast.paren (Ast.ident "f")) Ast.nilList false) =
      "anonymous_" ++ (fun s => s)
        (renderText (Ast.call (Ast.paren (Ast.ident "f")) Ast.nilList false)) :=
  ⟨(getFunctionName_resolution (fun s => s)).2.2.1 (Ast.ident "obj") "m" Ast.nilList
      false rfl,
   (getFunctionName_resolution (fun s => s)).2.2.2.1 (Ast.paren (Ast.ident "f"))
      Ast.nilList false rfl⟩

/-- C10: for a callee `base.m` whose receiver `base` is neither an
identifier, `this`, nor a property access (e.g. a call result, as in
`f().m(x)`), the resolved name is `"anonymous_"` plus the hash of the inner
property-access node's source text — the receiver's own text with the member
name appended — with the member name appended again outside the hash; the
hashed text is the sub-expression the recursion reached, not the exact
source text of the whole call node. -/
theorem getFunctionName_anonymous_chain (hash : String → String) (base : Ast)
    (m : String) (args : Ast) (mk : Bool) (h : anonymousBase base = true) :
    getFunctionName hash (Ast.call (Ast.propAccess base m) args mk) =
      "anonymous_" ++ hash (renderText base ++ "." ++ m) ++ "." ++ m
    ∧ renderText (Ast.propAccess base m) = renderText base ++ "." ++ m
    ∧ renderText (Ast.propAccess base m) ≠
        renderText (Ast.call (Ast.propAccess base m) args mk) := by
  refine ⟨?_, ?_, ?_⟩
  · cases base <;>
      simp_all [getFunctionName, getFunctionNamePA, anonymousBase, isThis, renderText]
  · simp [renderText]
  · intro heq
    have hl := congrArg String.length heq
    have hp : ("(" : String).length = 1 := rfl
    have hq : (")" : String).length = 1 := rfl
    simp only [renderText, String.length_append, hp, hq] at hl
    omega

/-- Witness for C10: `f().m(x)` — the receiver is a call result; the name
hashes `f().m`, not the whole call's text. -/
theorem getFunctionName_anonymous_chain_witness :
    getFunctionName (fun s => s)
        (Ast.call (Ast.propAccess (Ast.call (Ast.ident "f") Ast.nilList false) "m")
          (Ast.consList (Ast.ident "x") Ast.nilList) false) =
      "anonymous_" ++ (fun s : String => s)
        (renderText (Ast.call (Ast.ident "f") Ast.nilList false) ++ "." ++ "m")
        ++ "." ++ "m"
    ∧ renderText (Ast.propAccess (Ast.call (Ast.ident "f") Ast.nilList false) "m") =
        renderText (Ast.call (Ast.ident "f") Ast.nilList false) ++ "." ++ "m"
    ∧ renderText (Ast.propAccess (Ast.call (Ast.ident "f") Ast.nilList false) "m") ≠
        renderText
          (Ast.call (Ast.propAccess (Ast.call (Ast.ident "f") Ast.nilList false) "m")
            (Ast.consList (Ast.ident "x") Ast.nilList) false) :=
  getFunctionName_anonymous_chain (fun s => s)
    (Ast.call (Ast.ident "f") Ast.nilList false) "m"
    (Ast.consList (Ast.ident "x") Ast.nilList) false rfl

/-- C4: `shouldInstrumentCall` returns false iff the resolved name equals an
excluded name exactly or starts with an excluded name followed by `.`; in
particular a call resolving to `console.log` is never wrapped, while a call
resolving to `someLogger.log` is wrapped (no substring false positives). -/
theorem shouldInstrumentCall_spec (hash : String → String) (node : Ast) :
    (shouldInstrumentCall hash node = false ↔
      ∃ excluded ∈ EXCLUDED_FUNCTIONS,
        getFunctionName hash node = excluded ∨
        strStartsWith (getFunctionName hash node) (excluded ++ ".") = true)
    ∧ (∀ args mk, shouldInstrumentCall hash
        (Ast.call (Ast.propAccess (Ast.ident "console") "log") args mk) = false)
    ∧ (∀ args mk, shouldInstrumentCall hash
        (Ast.call (Ast.propAccess (Ast.ident "someLogger") "log") args mk) = true) := by
  refine ⟨?_, ?_, ?_⟩
  · simp [shouldInstrumentCall, List.any_eq_true]
  · intro args mk
    simp only [shouldInstrumentCall, getFunctionName, getFunctionNamePA, isThis]
    decide
  · intro args mk
    simp only [shouldInstrumentCall, getFunctionName, getFunctionNamePA, isThis]
    decide

/-- C5: `_instrumentLoop` returns a loop of the same syntactic kind whose
header parts (initializer, condition, incrementor; or await modifier,
initializer and iterated expression) are exactly the original ones, and
whose body is the block `[loop registration, iteration increment, original
body]` with the original body statement unmodified as its last element. -/
theorem instrumentLoop_structure (hash : String → String) (st : InstrState) :
    (∀ i c inc b, (_instrumentLoop hash (Ast.forStmt i c inc b) st).1 =
      (let ln := (freshName (getNodeUniqueName hash (Ast.forStmt i c inc b) st).1
                    (getNodeUniqueName hash (Ast.forStmt i c inc b) st).2).1
       Ast.forStmt i c inc (Ast.block (listOf
         [Creator.createLoopData ln, Creator.createIncrementIteration ln, b]))))
    ∧ (∀ aw i e b, (_instrumentLoop hash (Ast.forOf aw i e b) st).1 =
      (let ln := (freshName (getNodeUniqueName hash (Ast.forOf aw i e b) st).1
                    (getNodeUniqueName hash (Ast.forOf aw i e b) st).2).1
       Ast.forOf aw i e (Ast.block (listOf
         [Creator.createLoopData ln, Creator.createIncrementIteration ln, b]))))
    ∧ (∀ i e b, (_instrumentLoop hash (Ast.forIn i e b) st).1 =
      (let ln := (freshName (getNodeUniqueName hash (Ast.forIn i e b) st).1
                    (getNodeUniqueName hash (Ast.forIn i e b) st).2).1
       Ast.forIn i e (Ast.block (listOf
         [Creator.createLoopData ln, Creator.createIncrementIteration ln, b])))) := by
  refine ⟨?_, ?_, ?_⟩
  · intro i c inc b
    simp [_instrumentLoop, loopBody]
  · intro aw i e b
    simp [_instrumentLoop, loopBody]
  · intro i e b
    simp [_instrumentLoop, loopBody]

/-- C6: on a compilation-unit (source file) root, `instrumentFunction`
returns the unit with exactly the one fixed initialization sequence
prepended, the original top-level statements preserved unchanged and in
order, whatever they contain. -/
theorem instrumentFunction_sourceFile (hash : String → String) (ss : Ast)
    (st : InstrState) :
    instrumentFunction hash (Ast.sourceFile ss) st =
      (Ast.sourceFile (astAppend Creator.createInitStmt ss), st) := by
  simp [instrumentFunction, isSourceFileNode, sourceStatements]

/-- C7: loop instrumentation has no idempotency guard: applying
`_instrumentLoop` to a loop whose body is already the synthesized
bookkeeping block wraps it again, nesting a second bookkeeping block around
the first, for each of the three loop kinds. -/
theorem instrumentLoop_no_guard (hash : String → String) (st : InstrState) :
    (∀ i c inc b, ∃ n1 n2,
      (_instrumentLoop hash (Ast.forStmt i c inc b) st).1 =
        Ast.forStmt i c inc (Ast.block (listOf
          [Creator.createLoopData n1, Creator.createIncrementIteration n1, b]))
      ∧ (_instrumentLoop hash ((_instrumentLoop hash (Ast.forStmt i c inc b) st).1)
          ((_instrumentLoop hash (Ast.forStmt i c inc b) st).2)).1 =
        Ast.forStmt i c inc (Ast.block (listOf
          [Creator.createLoopData n2, Creator.createIncrementIteration n2,
           Ast.block (listOf
             [Creator.createLoopData n1, Creator.createIncrementIteration n1, b])])))
    ∧ (∀ aw i e b, ∃ n1 n2,
      (_instrumentLoop hash (Ast.forOf aw i e b) st).1 =
        Ast.forOf aw i e (Ast.block (listOf
          [Creator.createLoopData n1, Creator.createIncrementIteration n1, b]))
      ∧ (_instrumentLoop hash ((_instrumentLoop hash (Ast.forOf aw i e b) st).1)
          ((_instrumentLoop hash (Ast.forOf aw i e b) st).2)).1 =
        Ast.forOf aw i e (Ast.block (listOf
          [Creator.createLoopData n2, Creator.createIncrementIteration n2,
           Ast.block (listOf
             [Creator.createLoopData n1, Creator.createIncrementIteration n1, b])])))
    ∧ (∀ i e b, ∃ n1 n2,
      (_instrumentLoop hash (Ast.forIn i e b) st).1 =
        Ast.forIn i e (Ast.block (listOf
          [Creator.createLoopData n1, Creator.createIncrementIteration n1, b]))
      ∧ (_instrumentLoop hash ((_instrumentLoop hash (Ast.forIn i e b) st).1)
          ((_instrumentLoop hash (Ast.forIn i e b) st).2)).1 =
        Ast.forIn i e (Ast.block (listOf
          [Creator.createLoopData n2, Creator.createIncrementIteration n2,
           Ast.block (listOf
             [Creator.createLoopData n1, Creator.createIncrementIteration n1, b])]))) := by
  refine ⟨?_, ?_, ?_⟩ <;> intros <;>
    exact ⟨_, _, rfl, rfl⟩

/-- C8: every node that is not a source-file root, not a call expression
passing the exclusion filter, and not a for/for-of/for-in loop — a `while`
loop in particular — is returned unchanged by `instrumentFunction`, state
included. -/
theorem instrumentFunction_passthrough (hash : String → String) (node : Ast)
    (st : InstrState)
    (h1 : isSourceFileNode node = false)
    (h2 : (isCallExpression node && shouldInstrumentCall hash node) = false)
    (h3 : isForLike node = false) :
    instrumentFunction hash node st = (node, st) := by
  simp [instrumentFunction, h1, h2, h3]

/-- Witness for C8: a `while` loop (an unsupported loop kind) is passed
through unchanged. -/
theorem instrumentFunction_passthrough_witness :
    instrumentFunction (fun s => s)
        (Ast.whileStmt (Ast.ident "c") (Ast.block Ast.nilList)) (InstrState.mk [] 0) =
      (Ast.whileStmt (Ast.ident "c") (Ast.block Ast.nilList), InstrState.mk [] 0) :=
  instrumentFunction_passthrough (fun s => s)
    (Ast.whileStmt (Ast.ident "c") (Ast.block Ast.nilList)) (InstrState.mk [] 0)
    rfl rfl rfl

theorem getFunctionName_markNode (hash : String → String) (c a : Ast) (mk : Bool) :
    getFunctionName hash (Ast.call c a true) = getFunctionName hash (Ast.call c a mk) := by
  cases c <;> rw [getFunctionName, getFunctionName] <;>
    first
      | rfl
      | (rw [renderText, renderText])
      | (intros; simp_all)

/-- C9: when `_instrumentCall` wraps a call it records the resolved name in
the `isInstrumented` map and puts the marker on the original node, the
marked original is embedded exactly once in the returned closure (as the
`const` initializer of C1's structure), and revisiting the embedded original
under the updated state satisfies both skip conditions and returns it
unchanged — no call node is wrapped twice within one traversal. -/
theorem instrumentCall_marks_and_skips_revisit (hash : String → String)
    (callee args : Ast) (mk : Bool) (st : InstrState)
    (h : (st.isInstrumented.contains (getFunctionName hash (Ast.call callee args mk))
          && isMarkedNode (Ast.call callee args mk)) = false) :
    ((_instrumentCall hash (Ast.call callee args mk) st).2).isInstrumented.contains
        (getFunctionName hash (Ast.call callee args mk)) = true
    ∧ isMarkedNode (markNode (Ast.call callee args mk)) = true
    ∧ countOcc (markNode (Ast.call callee args mk))
        ((_instrumentCall hash (Ast.call callee args mk) st).1) = 1
    ∧ _instrumentCall hash (markNode (Ast.call callee args mk))
        ((_instrumentCall hash (Ast.call callee args mk) st).2) =
      (markNode (Ast.call callee args mk),
       (_instrumentCall hash (Ast.call callee args mk) st).2) := by
  have h' : (st.isInstrumented.contains (getFunctionName hash (Ast.call callee args mk))
          && isMarkedNode (Ast.call callee args mk)) ≠ true := by rw [h]; simp
  have hmem : ((_instrumentCall hash (Ast.call callee args mk) st).2).isInstrumented.contains
      (getFunctionName hash (Ast.call callee args mk)) = true := by
    simp only [_instrumentCall, if_neg h']
    simp [freshName]
  refine ⟨hmem, rfl, ?_, ?_⟩
  · have hcnt := instrumentCall_count_one hash callee args mk st h
    simpa [markNode] using hcnt
  · apply instrumentCall_skip
    rw [markNode]
    rw [getFunctionName_markNode hash callee args mk]
    rw [show isMarkedNode (Ast.call callee args true) = true from rfl]
    simpa using hmem

/-- Witness for C9: wrapping `f()` from the empty state and revisiting the
embedded marked original. -/
theorem instrumentCall_marks_and_skips_revisit_witness :
    ((_instrumentCall (fun s => s) (Ast.call (Ast.ident "f") Ast.nilList false)
        (InstrState.mk [] 0)).2).isInstrumented.contains
      (getFunctionName (fun s => s) (Ast.call (Ast.ident "f") Ast.nilList false)) = true
    ∧ isMarkedNode (markNode (Ast.call (Ast.ident "f") Ast.nilList false)) = true
    ∧ countOcc (markNode (Ast.call (Ast.ident "f") Ast.nilList false))
        ((_instrumentCall (fun s => s) (Ast.call (Ast.ident "f") Ast.nilList false)
          (InstrState.mk [] 0)).1) = 1
    ∧ _instrumentCall (fun s => s) (markNode (Ast.call (Ast.ident "f") Ast.nilList false))
        ((_instrumentCall (fun s => s) (Ast.call (Ast.ident "f") Ast.nilList false)
          (InstrState.mk [] 0)).2) =
      (markNode (Ast.call (Ast.ident "f") Ast.nilList false),
       (_instrumentCall (fun s => s) (Ast.call (Ast.ident "f") Ast.nilList false)
         (InstrState.mk [] 0)).2) :=
  instrumentCall_marks_and_skips_revisit (fun s => s) (Ast.ident "f") Ast.nilList false
    (InstrState.mk [] 0) rfl
